import Mathlib

/-!
Verification of the streviz scheduling core: a shallow embedding of the
scheduler (state machine, capacity limits, priority queue, scheduler
composition), the merge compatibility checker, the concat manifest writer
and the normalize cache, with theorems settling the specification claims.

Modelling conventions:
* Rust `usize` counters are `Nat`; `saturating_sub` is `Nat` subtraction.
* Rust `u32` arithmetic that can overflow is taken modulo `2 ^ 32`.
* Rust `HashMap` is an association list with `insertA` / `removeA` /
  `lookupA`; `HashSet` is a duplicate-free `List`.
* Rust `BinaryHeap` is a `List` whose pop extracts a maximal element
  (leftmost among ties) under the source `Ord` implementation.
* The reason strings built with `format!` in `limits.rs` are modelled by
  the inductive `Reason` (their numeric payloads are irrelevant to every
  claim); `reasonStr` renders a reason for storage in `last_error`.
* `chrono::Utc::now()` is an environment input, passed as a `Nat`
  timestamp parameter where the source calls it.
-/

namespace Streviz

/-! ## Stream state machine (`scheduler/state.rs`) -/

/-- The six lifecycle states of `StreamState`. -/
inductive StreamState
  | pending
  | queued
  | starting
  | running
  | stopped
  | error
deriving DecidableEq, Repr

/-- `StreamState::is_active`. -/
def StreamState.is_active : StreamState → Bool
  | .queued | .starting | .running => true
  | _ => false

/-- `StreamState::can_start`. -/
def StreamState.can_start : StreamState → Bool
  | .pending | .stopped | .error => true
  | _ => false

/-- `StreamState::can_stop`. -/
def StreamState.can_stop : StreamState → Bool
  | .queued | .starting | .running => true
  | _ => false

/-- `StateEvent` from `scheduler/state.rs`. -/
inductive StateEvent
  | startRequested
  | enqueuedForLimits (reason : String)
  | slotAvailable
  | processStarted (pid : Nat)
  | processStopped
  | errorOccurred (message : String)
  | stopRequested
deriving DecidableEq, Repr

/-- `StreamStateMachine` record. -/
structure StreamStateMachine where
  stream_id : String
  state : StreamState
  last_error : Option String
  pid : Option Nat
deriving DecidableEq, Repr

/-- `StreamStateMachine::new`. -/
def StreamStateMachine.new (id : String) : StreamStateMachine :=
  { stream_id := id, state := .pending, last_error := none, pid := none }

/-- `StreamStateMachine::apply`: on success returns the mutated machine, on an
invalid transition returns `Err` and the machine is left unchanged (the source
mutates `self` only inside the accepted match arms). -/
def StreamStateMachine.apply (m : StreamStateMachine) (e : StateEvent) :
    Except String StreamStateMachine :=
  match m.state, e with
  | .pending, .startRequested
  | .stopped, .startRequested
  | .error, .startRequested =>
      .ok { m with state := .starting }
  | .starting, .enqueuedForLimits reason =>
      .ok { m with last_error := some reason, state := .queued }
  | .starting, .processStarted pid =>
      .ok { m with pid := some pid, last_error := none, state := .running }
  | .queued, .slotAvailable =>
      .ok { m with state := .starting }
  | .running, .processStopped =>
      .ok { m with pid := none, state := .stopped }
  | .queued, .stopRequested
  | .starting, .stopRequested
  | .running, .stopRequested =>
      .ok { m with pid := none, state := .stopped }
  | _, .errorOccurred message =>
      .ok { m with last_error := some message, pid := none, state := .error }
  | _, _ =>
      .error "Invalid transition"

/-- The scheduler discards the `Result` of `apply` (`let _ = sm.apply(..)`): the
machine is the mutated one on `Ok` and unchanged on `Err`. -/
def applyOr (m : StreamStateMachine) (e : StateEvent) : StreamStateMachine :=
  match m.apply e with
  | .ok m2 => m2
  | .error _ => m

/-- Folding a list of events over a machine. -/
def runSM (m : StreamStateMachine) : List StateEvent → StreamStateMachine
  | [] => m
  | e :: es => runSM (applyOr m e) es

/-! ## Capacity limits (`scheduler/limits.rs`) -/

/-- `2 ^ 32`, the modulus of Rust `u32` arithmetic. -/
def u32Mod : Nat := 4294967296

/-- `Limits` configuration. -/
structure Limits where
  max_total : Nat
  max_cpu_transcode : Nat
  max_nvenc_transcode : Nat
  max_bitrate_mbps : Nat
deriving DecidableEq, Repr

/-- `CurrentUsage` counters. -/
structure CurrentUsage where
  total_running : Nat
  copy_running : Nat
  cpu_transcoding : Nat
  nvenc_transcoding : Nat
  total_bitrate_mbps : Nat
deriving DecidableEq, Repr

/-- `CurrentUsage::default()`: all counters zero. -/
def CurrentUsage.empty : CurrentUsage :=
  { total_running := 0, copy_running := 0, cpu_transcoding := 0,
    nvenc_transcoding := 0, total_bitrate_mbps := 0 }

/-- `CurrentUsage::add_stream`. -/
def CurrentUsage.add_stream (u : CurrentUsage) (mode : String) (bitrate_mbps : Nat) :
    CurrentUsage :=
  let u := { u with
    total_running := u.total_running + 1,
    total_bitrate_mbps := (u.total_bitrate_mbps + bitrate_mbps) % u32Mod }
  if mode = "copy" then { u with copy_running := u.copy_running + 1 }
  else if mode = "cpu" then { u with cpu_transcoding := u.cpu_transcoding + 1 }
  else if mode = "nvenc" then { u with nvenc_transcoding := u.nvenc_transcoding + 1 }
  else u

/-- `CurrentUsage::remove_stream` (`saturating_sub` is `Nat` subtraction). -/
def CurrentUsage.remove_stream (u : CurrentUsage) (mode : String) (bitrate_mbps : Nat) :
    CurrentUsage :=
  let u := { u with
    total_running := u.total_running - 1,
    total_bitrate_mbps := u.total_bitrate_mbps - bitrate_mbps }
  if mode = "copy" then { u with copy_running := u.copy_running - 1 }
  else if mode = "cpu" then { u with cpu_transcoding := u.cpu_transcoding - 1 }
  else if mode = "nvenc" then { u with nvenc_transcoding := u.nvenc_transcoding - 1 }
  else u

/-- The distinct `format!` reason strings produced by `can_start`. -/
inductive Reason
  | maxStreams
  | cpuLimit
  | nvencLimit
  | bandwidth
  | unknownMode
deriving DecidableEq, Repr

/-- Rendering of a reason, standing in for the `format!` string whose numeric
payload no claim inspects. -/
def reasonStr : Reason → String
  | .maxStreams => "Max streams reached"
  | .cpuLimit => "CPU transcode limit reached"
  | .nvencLimit => "NVENC session limit reached"
  | .bandwidth => "Bandwidth limit would be exceeded"
  | .unknownMode => "Unknown mode"

/-- `LimitCheckResult`. -/
inductive LimitCheckResult
  | allowed
  | queued (reason : Reason)
  | rejected (reason : Reason)
deriving DecidableEq, Repr

/-- `LimitsEnforcer` pairs the limits with the usage counters. -/
structure LimitsEnforcer where
  limits : Limits
  usage : CurrentUsage
deriving DecidableEq, Repr

/-- `LimitsEnforcer::new`. -/
def LimitsEnforcer.new (l : Limits) : LimitsEnforcer :=
  { limits := l, usage := CurrentUsage.empty }

/-- `LimitsEnforcer::update_limits`. -/
def LimitsEnforcer.update_limits (e : LimitsEnforcer) (l : Limits) : LimitsEnforcer :=
  { e with limits := l }

/-- The bandwidth check at the end of `can_start` (u32 addition wraps). -/
def LimitsEnforcer.bandwidth_gate (e : LimitsEnforcer) (bitrate_mbps : Nat) :
    LimitCheckResult :=
  if (e.usage.total_bitrate_mbps + bitrate_mbps) % u32Mod > e.limits.max_bitrate_mbps then
    .queued .bandwidth
  else
    .allowed

/-- `LimitsEnforcer::can_start`, translated arm by arm: total-count check, then
the `match mode` with per-mode checks and the unknown-mode rejection, then the
bandwidth check. -/
def LimitsEnforcer.can_start (e : LimitsEnforcer) (mode : String) (bitrate_mbps : Nat) :
    LimitCheckResult :=
  if e.usage.total_running ≥ e.limits.max_total then
    .queued .maxStreams
  else if mode = "cpu" then
    if e.usage.cpu_transcoding ≥ e.limits.max_cpu_transcode then
      .queued .cpuLimit
    else
      e.bandwidth_gate bitrate_mbps
  else if mode = "nvenc" then
    if e.usage.nvenc_transcoding ≥ e.limits.max_nvenc_transcode then
      .queued .nvencLimit
    else
      e.bandwidth_gate bitrate_mbps
  else if mode = "copy" then
    e.bandwidth_gate bitrate_mbps
  else
    .rejected .unknownMode

/-- `LimitsEnforcer::record_start`. -/
def LimitsEnforcer.record_start (e : LimitsEnforcer) (mode : String) (bitrate_mbps : Nat) :
    LimitsEnforcer :=
  { e with usage := e.usage.add_stream mode bitrate_mbps }

/-- `LimitsEnforcer::record_stop`. -/
def LimitsEnforcer.record_stop (e : LimitsEnforcer) (mode : String) (bitrate_mbps : Nat) :
    LimitsEnforcer :=
  { e with usage := e.usage.remove_stream mode bitrate_mbps }

/-- The decision ladder of the specification for `can_start`, written exactly as the
five numbered steps of spec §4.1 (with mathematical, non-wrapping addition in
the bandwidth step). Compared against the source translation in claim C3. -/
def specCanStartLadder (e : LimitsEnforcer) (mode : String) (bitrate_mbps : Nat) :
    LimitCheckResult :=
  if e.usage.total_running ≥ e.limits.max_total then
    .queued .maxStreams
  else if mode = "cpu" ∧ e.usage.cpu_transcoding ≥ e.limits.max_cpu_transcode then
    .queued .cpuLimit
  else if mode = "nvenc" ∧ e.usage.nvenc_transcoding ≥ e.limits.max_nvenc_transcode then
    .queued .nvencLimit
  else if ¬ (mode = "copy" ∨ mode = "cpu" ∨ mode = "nvenc") then
    .rejected .unknownMode
  else if e.usage.total_bitrate_mbps + bitrate_mbps > e.limits.max_bitrate_mbps then
    .queued .bandwidth
  else
    .allowed

/-! ## Priority queue (`scheduler/queue.rs`) -/

/-- `QueuedStream`: an entry waiting in the queue. `queued_at` is the
`chrono::DateTime<Utc>` timestamp, modelled as a `Nat`. -/
structure QueuedStream where
  stream_id : String
  priority : Nat
  pinned : Bool
  mode : String
  queued_at : Nat
deriving DecidableEq, Repr

/-- Rust `Ord` on `bool`: `false < true`. -/
def boolCmp : Bool → Bool → Ordering
  | false, false => .eq
  | false, true => .lt
  | true, false => .gt
  | true, true => .eq

/-- Rust `Ord` on unsigned integers. -/
def natCmp (a b : Nat) : Ordering :=
  if a < b then .lt else if a = b then .eq else .gt

/-- `impl Ord for QueuedStream`: pinned first, then priority (higher first),
then FIFO (`other.queued_at.cmp(&self.queued_at)`, so earlier is greater). -/
def cmpQS (a b : QueuedStream) : Ordering :=
  (boolCmp a.pinned b.pinned).then
    ((natCmp a.priority b.priority).then (natCmp b.queued_at a.queued_at))

/-- Extract a maximal element (under `cmpQS`) from `x :: xs`, keeping the
leftmost among ties, together with the remaining elements. This models
`BinaryHeap::pop`, which always yields a greatest element. -/
def popMax : QueuedStream → List QueuedStream → QueuedStream × List QueuedStream
  | x, [] => (x, [])
  | x, y :: ys =>
      if cmpQS y x = .gt then
        let p := popMax y ys
        (p.1, x :: p.2)
      else
        let p := popMax x ys
        (p.1, y :: p.2)

/-- `QueueManager`: the heap is a list popped via `popMax`; the running set is
a duplicate-free list of ids. -/
structure QueueManager where
  queue : List QueuedStream
  running : List String
deriving DecidableEq, Repr

/-- `QueueManager::new`. -/
def QueueManager.new : QueueManager := { queue := [], running := [] }

/-- `QueueManager::enqueue`: rejects ids already running or already queued. -/
def QueueManager.enqueue (q : QueueManager) (s : QueuedStream) : QueueManager :=
  if s.stream_id ∈ q.running ∨ q.queue.any (fun t => t.stream_id = s.stream_id) then q
  else { q with queue := q.queue ++ [s] }

/-- `QueueManager::peek`. -/
def QueueManager.peek (q : QueueManager) : Option QueuedStream :=
  match q.queue with
  | [] => none
  | x :: xs => some (popMax x xs).1

/-- `QueueManager::dequeue`. -/
def QueueManager.dequeue (q : QueueManager) : Option QueuedStream × QueueManager :=
  match q.queue with
  | [] => (none, q)
  | x :: xs => (some (popMax x xs).1, { q with queue := (popMax x xs).2 })

/-- `QueueManager::mark_running` (set insertion). -/
def QueueManager.mark_running (q : QueueManager) (id : String) : QueueManager :=
  if id ∈ q.running then q else { q with running := q.running ++ [id] }

/-- Removing every entry with a given id from a list of queued streams. -/
def removeQ (id : String) : List QueuedStream → List QueuedStream
  | [] => []
  | s :: rest => if s.stream_id = id then removeQ id rest else s :: removeQ id rest

/-- Removing an id from the running set. -/
def removeId (id : String) : List String → List String
  | [] => []
  | s :: rest => if s = id then removeId id rest else s :: removeId id rest

/-- `QueueManager::mark_stopped` (set removal). -/
def QueueManager.mark_stopped (q : QueueManager) (id : String) : QueueManager :=
  { q with running := removeId id q.running }

/-- `QueueManager::remove_from_queue`, the drain-and-reinsert filter. -/
def QueueManager.remove_from_queue (q : QueueManager) (id : String) : QueueManager :=
  { q with queue := removeQ id q.queue }

/-- `QueueManager::queue_len`. -/
def QueueManager.queue_len (q : QueueManager) : Nat := q.queue.length

/-- `QueueManager::is_queued`. -/
def QueueManager.is_queued (q : QueueManager) (id : String) : Bool :=
  q.queue.any (fun s => s.stream_id = id)

/-- `QueueManager.is_running`. -/
def QueueManager.is_running (q : QueueManager) (id : String) : Bool :=
  q.running.contains id

/-- Repeatedly dequeue with fuel; `dequeueAll` uses fuel `l.length`, which
drains the whole queue (each pop removes exactly one element). -/
def dequeueN : Nat → List QueuedStream → List QueuedStream
  | 0, _ => []
  | _, [] => []
  | n + 1, x :: xs => (popMax x xs).1 :: dequeueN n (popMax x xs).2

/-- The full dequeue order of a queue holding the entries `l`. -/
def dequeueAll (l : List QueuedStream) : List QueuedStream :=
  dequeueN l.length l

/-! ## Scheduler (`scheduler/mod.rs`) -/

/-- `AppSettings` (`db/schema.rs`), the four unsigned limits. -/
structure AppSettings where
  max_total_streams : Nat
  max_transcode_cpu : Nat
  max_transcode_nvenc : Nat
  max_total_bitrate_mbps : Nat
deriving DecidableEq, Repr

/-- `AppSettings::default()`. -/
def AppSettings.default : AppSettings :=
  { max_total_streams := 50, max_transcode_cpu := 8,
    max_transcode_nvenc := 6, max_total_bitrate_mbps := 500 }

/-- `StreamInfo`: the descriptor registered with the scheduler. -/
structure StreamInfo where
  id : String
  mode : String
  bitrate_mbps : Nat
  priority : Nat
  pinned : Bool
deriving DecidableEq, Repr

/-- `ScheduleResult`. -/
structure ScheduleResult where
  stream_id : String
  status : String
  queued : Bool
  queue_position : Option Nat
  message : Option String
deriving DecidableEq, Repr

/-- Association-list lookup (model of `HashMap::get`). -/
def lookupA {α : Type} (k : String) : List (String × α) → Option α
  | [] => none
  | (k2, v) :: rest => if k2 = k then some v else lookupA k rest

/-- Association-list insert-or-replace (model of `HashMap::insert`). -/
def insertA {α : Type} (k : String) (v : α) : List (String × α) → List (String × α)
  | [] => [(k, v)]
  | (k2, v2) :: rest => if k2 = k then (k, v) :: rest else (k2, v2) :: insertA k v rest

/-- Association-list removal (model of `HashMap::remove`). -/
def removeA {α : Type} (k : String) : List (String × α) → List (String × α)
  | [] => []
  | (k2, v) :: rest => if k2 = k then removeA k rest else (k2, v) :: removeA k rest

/-- In-place update of the value under a key, if present (model of
`HashMap::get_mut` followed by mutation). -/
def updateA {α : Type} (k : String) (f : α → α) : List (String × α) → List (String × α)
  | [] => []
  | (k2, v) :: rest => if k2 = k then (k2, f v) :: rest else (k2, v) :: updateA k f rest

/-- The `Scheduler` aggregate. -/
structure Scheduler where
  queue : QueueManager
  limits : LimitsEnforcer
  states : List (String × StreamStateMachine)
  stream_info : List (String × StreamInfo)
deriving DecidableEq, Repr

/-- The `Limits` the scheduler builds from settings (`as usize` casts are
identities on `Nat`). -/
def limitsOfSettings (s : AppSettings) : Limits :=
  { max_total := s.max_total_streams,
    max_cpu_transcode := s.max_transcode_cpu,
    max_nvenc_transcode := s.max_transcode_nvenc,
    max_bitrate_mbps := s.max_total_bitrate_mbps }

/-- `Scheduler::new`. -/
def Scheduler.new (settings : AppSettings) : Scheduler :=
  { queue := QueueManager.new,
    limits := LimitsEnforcer.new (limitsOfSettings settings),
    states := [],
    stream_info := [] }

/-- `Scheduler::update_settings`. -/
def Scheduler.update_settings (s : Scheduler) (settings : AppSettings) : Scheduler :=
  { s with limits := s.limits.update_limits (limitsOfSettings settings) }

/-- `Scheduler::register_stream`: inserts the descriptor and a fresh `Pending`
state machine (overwriting any previous ones). -/
def Scheduler.register_stream (s : Scheduler) (info : StreamInfo) : Scheduler :=
  { s with
    stream_info := insertA info.id info s.stream_info,
    states := insertA info.id (StreamStateMachine.new info.id) s.states }

/-- `Scheduler::unregister_stream`. -/
def Scheduler.unregister_stream (s : Scheduler) (id : String) : Scheduler :=
  { s with
    stream_info := removeA id s.stream_info,
    states := removeA id s.states,
    queue := s.queue.remove_from_queue id }

/-- `Scheduler::request_start`. `now` is the `Utc::now()` timestamp used for
`queued_at`. The `entry(..).or_insert_with(..)` is modelled by looking up the
machine (defaulting to a fresh one) and re-inserting it on every path. -/
def Scheduler.request_start (s : Scheduler) (id : String) (now : Nat) :
    ScheduleResult × Scheduler :=
  match lookupA id s.stream_info with
  | none =>
      ({ stream_id := id, status := "error", queued := false,
         queue_position := none, message := some "Stream not registered" }, s)
  | some info =>
      let sm0 := (lookupA id s.states).getD (StreamStateMachine.new id)
      if sm0.state.can_start = false then
        ({ stream_id := id, status := "cannot start", queued := false,
           queue_position := none, message := some "Cannot start from state" },
         { s with states := insertA id sm0 s.states })
      else
        let sm1 := applyOr sm0 .startRequested
        match s.limits.can_start info.mode info.bitrate_mbps with
        | .allowed =>
            ({ stream_id := id, status := "starting", queued := false,
               queue_position := none, message := none },
             { s with
               states := insertA id sm1 s.states,
               limits := s.limits.record_start info.mode info.bitrate_mbps,
               queue := s.queue.mark_running id })
        | .queued r =>
            let sm2 := applyOr sm1 (.enqueuedForLimits (reasonStr r))
            let q2 := s.queue.enqueue
              { stream_id := id, priority := info.priority, pinned := info.pinned,
                mode := info.mode, queued_at := now }
            ({ stream_id := id, status := "queued", queued := true,
               queue_position := some q2.queue_len, message := some (reasonStr r) },
             { s with states := insertA id sm2 s.states, queue := q2 })
        | .rejected r =>
            let sm2 := applyOr sm1 (.errorOccurred (reasonStr r))
            ({ stream_id := id, status := "error", queued := false,
               queue_position := none, message := some (reasonStr r) },
             { s with states := insertA id sm2 s.states })

/-- `Scheduler::on_process_started`. -/
def Scheduler.on_process_started (s : Scheduler) (id : String) (pid : Nat) : Scheduler :=
  { s with states := updateA id (fun sm => applyOr sm (.processStarted pid)) s.states }

/-- `Scheduler::on_stream_stopped`: release capacity, clear from the running
set, apply `ProcessStopped`. -/
def Scheduler.on_stream_stopped (s : Scheduler) (id : String) : Scheduler :=
  let s1 := match lookupA id s.stream_info with
    | some info => { s with limits := s.limits.record_stop info.mode info.bitrate_mbps }
    | none => s
  let s2 := { s1 with queue := s1.queue.mark_stopped id }
  { s2 with states := updateA id (fun sm => applyOr sm .processStopped) s2.states }

/-- `Scheduler::on_stream_error`. -/
def Scheduler.on_stream_error (s : Scheduler) (id : String) (msg : String) : Scheduler :=
  let s1 := match lookupA id s.stream_info with
    | some info => { s with limits := s.limits.record_stop info.mode info.bitrate_mbps }
    | none => s
  let s2 := { s1 with queue := s1.queue.mark_stopped id }
  { s2 with states := updateA id (fun sm => applyOr sm (.errorOccurred msg)) s2.states }

/-- `Scheduler::request_stop`. -/
def Scheduler.request_stop (s : Scheduler) (id : String) : Bool × Scheduler :=
  let s1 := { s with queue := s.queue.remove_from_queue id }
  match lookupA id s1.states with
  | some sm =>
      if sm.state.can_stop then
        let s2 := { s1 with states := insertA id (applyOr sm .stopRequested) s1.states }
        let s3 := match lookupA id s2.stream_info with
          | some info =>
              { s2 with limits := s2.limits.record_stop info.mode info.bitrate_mbps }
          | none => s2
        (true, { s3 with queue := s3.queue.mark_stopped id })
      else
        (false, s1)
  | none => (false, s1)

/-- The bitrate `try_dequeue_next` uses for the head: the registered
bitrate of the registered descriptor, with the `unwrap_or(0)` fallback. -/
def Scheduler.queued_bitrate (s : Scheduler) (id : String) : Nat :=
  match lookupA id s.stream_info with
  | some info => info.bitrate_mbps
  | none => 0

/-- `Scheduler::try_dequeue_next`: evaluate exactly the head of the queue. -/
def Scheduler.try_dequeue_next (s : Scheduler) : Option String × Scheduler :=
  match s.queue.peek with
  | none => (none, s)
  | some q =>
      let bitrate := s.queued_bitrate q.stream_id
      if s.limits.can_start q.mode bitrate = .allowed then
        (some q.stream_id,
         { s with
           queue := ((s.queue.dequeue).2.mark_running q.stream_id),
           limits := s.limits.record_start q.mode bitrate,
           states := updateA q.stream_id (fun sm => applyOr sm .slotAvailable) s.states })
      else
        (none, s)

/-- The public operations of the scheduler, as invoked by callers. `requestStart`
carries the wall-clock timestamp the source reads via `Utc::now()`. -/
inductive Op
  | register (info : StreamInfo)
  | unregister (id : String)
  | requestStart (id : String) (now : Nat)
  | requestStop (id : String)
  | onProcessStarted (id : String) (pid : Nat)
  | onStreamStopped (id : String)
  | onStreamError (id : String) (msg : String)
  | tryDequeueNext
  | updateSettings (settings : AppSettings)
deriving DecidableEq, Repr

/-- One public operation applied to the scheduler. -/
def Scheduler.step (s : Scheduler) : Op → Scheduler
  | .register info => s.register_stream info
  | .unregister id => s.unregister_stream id
  | .requestStart id now => (s.request_start id now).2
  | .requestStop id => (s.request_stop id).2
  | .onProcessStarted id pid => s.on_process_started id pid
  | .onStreamStopped id => s.on_stream_stopped id
  | .onStreamError id msg => s.on_stream_error id msg
  | .tryDequeueNext => (s.try_dequeue_next).2
  | .updateSettings settings => s.update_settings settings

/-- A sequence of public operations. -/
def Scheduler.run (s : Scheduler) : List Op → Scheduler
  | [] => s
  | op :: ops => (s.step op).run ops

/-! ## Merge compatibility (`merge/compatibility.rs`) -/

/-- `MediaFile` (`db/schema.rs`); `f64` durations are modelled as rationals,
`i32` fields as `Int`. -/
structure MediaFile where
  id : String
  path : String
  folder : String
  filename : String
  video_codec : Option String
  audio_codec : Option String
  profile : Option String
  level : Option Int
  has_b_frames : Int
  width : Option Int
  height : Option Int
  duration_secs : Option ℚ
  bitrate : Option Int
  compatibility : String
  scanned_at : String
deriving DecidableEq

/-- Rust `i32 as u32`: wrap modulo `2 ^ 32` as in two-complement hardware. -/
def i32AsU32 (i : Int) : Nat := (i % (4294967296 : Int)).toNat

/-- `FileCompatibility`; `fps` is the `f64` framerate, modelled as a rational
(every value the source produces here is the exact constant `30.0`). -/
structure FileCompatibility where
  video_codec : String
  audio_codec : String
  width : Nat
  height : Nat
  fps : ℚ
  sample_rate : Nat
  bitrate : Nat
deriving DecidableEq

/-- `estimate_fps`: the source ignores the file and returns the documented
default `30.0` (`MediaFile` carries no framerate metadata). -/
def estimate_fps (_file : MediaFile) : ℚ := 30

/-- `extract_compatibility`: codecs default to the empty string, dimensions to
0; the sample rate is the hard-coded default `48000`. -/
def extract_compatibility (file : MediaFile) : FileCompatibility :=
  { video_codec := file.video_codec.getD "",
    audio_codec := file.audio_codec.getD "",
    width := i32AsU32 (file.width.getD 0),
    height := i32AsU32 (file.height.getD 0),
    fps := estimate_fps file,
    sample_rate := 48000,
    bitrate := i32AsU32 (file.bitrate.getD 0) }

/-- `MergeStrategy`. -/
inductive MergeStrategy
  | empty
  | concatCopy
  | transcodeNormalize
deriving DecidableEq, Repr

/-- `is_compatible`: the five pairwise checks, in source order. -/
def is_compatible (a b : FileCompatibility) : Bool :=
  if a.video_codec ≠ b.video_codec then false
  else if a.audio_codec ≠ b.audio_codec then false
  else if a.width ≠ b.width ∨ a.height ≠ b.height then false
  else if |a.fps - b.fps| > (1 : ℚ) / 10 then false
  else if a.sample_rate ≠ b.sample_rate then false
  else true

/-- `check_merge_compatibility`. -/
def check_merge_compatibility (files : List MediaFile) : MergeStrategy :=
  match files with
  | [] => .empty
  | [_] => .concatCopy
  | first :: rest =>
      if rest.all (fun f => is_compatible (extract_compatibility first)
          (extract_compatibility f)) then
        .concatCopy
      else
        .transcodeNormalize

/-- The sharing predicate of the specification for claim C7: the file shares with
the first identical video codec, identical audio codec, identical
`(width, height)`, framerate within 0.1 fps and identical audio sample rate
(on the extracted compatibility data). -/
def specShares (a b : FileCompatibility) : Prop :=
  a.video_codec = b.video_codec ∧ a.audio_codec = b.audio_codec ∧
  (a.width, a.height) = (b.width, b.height) ∧
  |a.fps - b.fps| ≤ (1 : ℚ) / 10 ∧ a.sample_rate = b.sample_rate

instance (a b : FileCompatibility) : Decidable (specShares a b) := by
  unfold specShares; infer_instance

/-! ## Concat manifest (`merge/concat.rs`) -/

/-- The single-quote character. -/
def squote : Char := Char.ofNat 39

/-- The backslash character. -/
def backslash : Char := Char.ofNat 92

/-- The newline character. -/
def newlineChar : Char := Char.ofNat 10

/-- Rust `path.replace(squote, ...)`: each single quote becomes the sequence
quote, backslash, quote, quote; every other character is copied. -/
def escape_squotes : List Char → List Char
  | [] => []
  | c :: cs =>
      (if c = squote then [squote, backslash, squote, squote] else [c]) ++
        escape_squotes cs

/-- One `writeln!(list_file, ...)` line of the manifest: the word `file`, a
space, the quoted escaped path, and a newline. -/
def file_line (p : List Char) : List Char :=
  "file ".toList ++ [squote] ++ escape_squotes p ++ [squote] ++ [newlineChar]

/-- `create_concat_list`: the manifest text, built by the source loop over
the input paths (paths and the manifest are character lists). -/
def create_concat_list : List (List Char) → List Char
  | [] => []
  | p :: ps => file_line p ++ create_concat_list ps

/-- The description in the specification of the escape for claim C9: a path is
emitted character by character, a single quote becoming the replacement
sequence `seq`, everything else unchanged. -/
def specEscapeWith (seq : List Char) (p : List Char) : List Char :=
  (p.map (fun c => if c = squote then seq else [c])).flatten

/-! ## Normalize cache (`cache/normalize.rs`) -/

/-- `CacheEntry`, the persisted record (timestamps kept as strings, as in the
source). -/
structure CacheEntry where
  id : String
  source_file_id : String
  cache_key : String
  cache_path : String
  size_bytes : Int
  normalize_config : String
  created_at : String
  last_accessed : String
deriving DecidableEq, Repr

/-- The mutable state `get_or_normalize` works against: the `cache_files`
table rows in order, and the set of paths present on disk. -/
structure CacheState where
  store : List CacheEntry
  disk : List String
deriving DecidableEq, Repr

/-- `delete_entry`: `DELETE FROM cache_files WHERE id = ?`. -/
def delete_entry (id : String) : List CacheEntry → List CacheEntry
  | [] => []
  | e :: rest => if e.id = id then delete_entry id rest else e :: delete_entry id rest

/-- `touch_entry`: `UPDATE cache_files SET last_accessed = ? WHERE id = ?`. -/
def touch_entry (id now : String) : List CacheEntry → List CacheEntry
  | [] => []
  | e :: rest =>
      (if e.id = id then { e with last_accessed := now } else e) :: touch_entry id now rest

/-- `get_cached`: fetch the first row with the key; if its artifact is missing
on disk, delete the stale row and report a miss. Returns the lookup result and
the updated table. -/
def get_cached (st : CacheState) (cache_key : String) :
    Option CacheEntry × List CacheEntry :=
  match st.store.find? (fun e => e.cache_key = cache_key) with
  | none => (none, st.store)
  | some e =>
      if e.cache_path ∈ st.disk then (some e, st.store)
      else (none, delete_entry e.id st.store)

/-- `get_or_normalize`. The SHA-256 `cache_key` computed from
`(source_path, config)` is passed in as `cache_key` (hashing is not modelled;
no claim depends on its value), and so are the inputs the source draws from
the environment: the fresh row id, the `Utc::now()` timestamp and the size of
the artifact `normalize_to_file` produces. A successful normalize creates the
artifact `<cache_dir>/<cache_key>.ts` on disk and records a row whose
`created_at` and `last_accessed` are both `now`. -/
def get_or_normalize (st : CacheState) (source_file_id cache_key cache_dir : String)
    (config_json fresh_id now : String) (size_bytes : Int) : String × CacheState :=
  match get_cached st cache_key with
  | (some e, store2) =>
      (e.cache_path, { st with store := touch_entry e.id now store2 })
  | (none, store2) =>
      let cache_path := cache_dir ++ "/" ++ cache_key ++ ".ts"
      let entry : CacheEntry :=
        { id := fresh_id, source_file_id := source_file_id, cache_key := cache_key,
          cache_path := cache_path, size_bytes := size_bytes,
          normalize_config := config_json, created_at := now, last_accessed := now }
      (cache_path, { store := store2 ++ [entry], disk := cache_path :: st.disk })

/-! ## Helper lemmas -/

/-- `applyOr` preserves the pid/Running invariant. -/
theorem pidInv_applyOr (m : StreamStateMachine) (e : StateEvent)
    (h : m.pid.isSome = true ↔ m.state = .running) :
    (applyOr m e).pid.isSome = true ↔ (applyOr m e).state = .running := by
  obtain ⟨sid, st, le, pid⟩ := m
  cases st <;> cases e <;> simp_all [applyOr, StreamStateMachine.apply]

/-- `runSM` preserves the pid/Running invariant. -/
theorem pidInv_runSM (events : List StateEvent) (m : StreamStateMachine)
    (h : m.pid.isSome = true ↔ m.state = .running) :
    (runSM m events).pid.isSome = true ↔ (runSM m events).state = .running := by
  induction events generalizing m with
  | nil => exact h
  | cons e es ih => exact ih (applyOr m e) (pidInv_applyOr m e h)

/-- The boolean compatibility check agrees with the specification sharing
predicate. -/
theorem is_compatible_iff_specShares (a b : FileCompatibility) :
    is_compatible a b = true ↔ specShares a b := by
  unfold is_compatible specShares
  split_ifs with h1 h2 h3 h4 h5 <;>
    simp_all [Prod.ext_iff] <;>
    intros <;> first | omega | linarith

/-- The recursive quote escaping equals the per-character description. -/
theorem escape_squotes_eq_spec (p : List Char) :
    escape_squotes p = specEscapeWith [squote, backslash, squote, squote] p := by
  induction p with
  | nil => rfl
  | cons c cs ih =>
      simp only [escape_squotes, specEscapeWith, List.map_cons, List.flatten_cons]
      rw [ih]
      rfl

/-! ## Claims -/

/-- Claim C2 counterexample: from state `Error` with `last_error = some "x"`,
`StartRequested` succeeds into `Starting` but `last_error` stays `some "x"` —
it does not become `None` as the claim states (the source clears `last_error`
only on `ProcessStarted`). -/
theorem spec_C2_cex :
    StreamStateMachine.apply ⟨"s", .error, some "x", none⟩ .startRequested =
      .ok ⟨"s", .starting, some "x", none⟩ ∧
    ¬ ((⟨"s", .starting, some "x", none⟩ : StreamStateMachine).last_error = none) :=
  ⟨rfl, by simp⟩

/-- Claim C2 (amended): from `Pending`, `Stopped` or `Error`, `StartRequested`
succeeds, moves the state to `Starting` and leaves `last_error` (and `pid`)
unchanged; from `Stopped` or `Error` the only other accepted event is
`ErrorOccurred`, which overwrites `last_error` with its message; every other
event is rejected there and leaves the machine unchanged; `last_error` is
cleared exactly when `ProcessStarted` moves `Starting` to `Running`. -/
theorem spec_C2 (m : StreamStateMachine) :
    (m.state.can_start = true →
      m.apply .startRequested = .ok { m with state := .starting }) ∧
    (∀ msg, (m.state = .stopped ∨ m.state = .error) →
      m.apply (.errorOccurred msg) =
        .ok { m with state := .error, last_error := some msg, pid := none }) ∧
    (∀ e, (m.state = .stopped ∨ m.state = .error) →
      e ≠ .startRequested → (∀ msg, e ≠ .errorOccurred msg) →
      m.apply e = .error "Invalid transition") ∧
    (∀ p, m.state = .starting →
      m.apply (.processStarted p) =
        .ok { m with state := .running, pid := some p, last_error := none }) := by
  obtain ⟨sid, st, le, pid⟩ := m
  refine ⟨?_, ?_, ?_, ?_⟩
  · cases st <;> intro h <;> first | rfl | simp [StreamState.can_start] at h
  · intro msg h
    cases st <;> first | rfl | simp_all
  · intro e h h1 h2
    cases st <;> cases e <;>
      first | rfl | exact absurd rfl h1 | exact absurd rfl (h2 _) | simp_all
  · intro p h
    cases st <;> first | rfl | simp_all

/-- Claim C2 witness: the amended claim applied at a machine in `Stopped` with
a recorded error. -/
theorem spec_C2_witness :
    StreamStateMachine.apply ⟨"s", .stopped, some "x", none⟩ .startRequested =
      .ok ⟨"s", .starting, some "x", none⟩ ∧
    StreamStateMachine.apply ⟨"s", .stopped, some "x", none⟩ .slotAvailable =
      .error "Invalid transition" :=
  ⟨(spec_C2 ⟨"s", .stopped, some "x", none⟩).1 rfl,
   (spec_C2 ⟨"s", .stopped, some "x", none⟩).2.2.1 .slotAvailable (Or.inl rfl)
     (by intro h; cases h) (by intro msg h; cases h)⟩

/-- Claim C6: for every sequence of events applied from the initial `Pending`
machine, `pid` is `Some` if and only if the state is `Running`. -/
theorem spec_C6 (id : String) (events : List StateEvent) :
    (runSM (StreamStateMachine.new id) events).pid.isSome = true ↔
      (runSM (StreamStateMachine.new id) events).state = .running :=
  pidInv_runSM events (StreamStateMachine.new id) (by simp [StreamStateMachine.new])

/-- Claim C3: `can_start` follows exactly the specification decision ladder
(total count, then mode-specific with no `copy` limit, then unknown-mode
rejection, then bandwidth), provided the u32 bandwidth addition does not
overflow. -/
theorem spec_C3 (e : LimitsEnforcer) (mode : String) (b : Nat)
    (hov : e.usage.total_bitrate_mbps + b < u32Mod) :
    e.can_start mode b = specCanStartLadder e mode b := by
  unfold LimitsEnforcer.can_start specCanStartLadder LimitsEnforcer.bandwidth_gate
  rw [Nat.mod_eq_of_lt hov]
  split_ifs <;> simp_all

/-- Claim C3 witness: the ladder agreement evaluated at a fresh enforcer with
default limits on a 10 Mbps copy stream. -/
theorem spec_C3_witness :
    (LimitsEnforcer.new (limitsOfSettings AppSettings.default)).can_start "copy" 10 =
      specCanStartLadder (LimitsEnforcer.new (limitsOfSettings AppSettings.default))
        "copy" 10 :=
  spec_C3 _ _ _ (by decide)

/-- Claim C7: the merge strategy is `Empty` for no files, `ConcatCopy` for one
file, and for two or more files `ConcatCopy` exactly when every later file
shares with the first identical video codec, identical audio codec, identical
`(width, height)`, framerate within 0.1 fps and identical sample rate on the
extracted compatibility data (whose framerate is the documented default, the
records carrying no framerate metadata), otherwise `TranscodeNormalize`. -/
theorem spec_C7 :
    check_merge_compatibility [] = .empty ∧
    (∀ f, check_merge_compatibility [f] = .concatCopy) ∧
    (∀ a b rest,
      (check_merge_compatibility (a :: b :: rest) = .concatCopy ↔
        ∀ f ∈ b :: rest,
          specShares (extract_compatibility a) (extract_compatibility f)) ∧
      (check_merge_compatibility (a :: b :: rest) ≠ .concatCopy →
        check_merge_compatibility (a :: b :: rest) = .transcodeNormalize)) := by
  refine ⟨rfl, fun f => rfl, fun a b rest => ⟨?_, ?_⟩⟩
  · show (if (b :: rest).all
        (fun f => is_compatible (extract_compatibility a) (extract_compatibility f)) = true
      then MergeStrategy.concatCopy else MergeStrategy.transcodeNormalize) =
        MergeStrategy.concatCopy ↔ _
    split_ifs with h
    · simp only [List.all_eq_true] at h
      simp only [true_iff]
      intro f hf
      exact (is_compatible_iff_specShares _ _).1 (h f hf)
    · simp only [List.all_eq_true] at h
      constructor
      · intro hc; cases hc
      · intro hall
        exact absurd (fun f hf => (is_compatible_iff_specShares _ _).2 (hall f hf)) h
  · show (if (b :: rest).all
        (fun f => is_compatible (extract_compatibility a) (extract_compatibility f)) = true
      then MergeStrategy.concatCopy else MergeStrategy.transcodeNormalize) ≠
        MergeStrategy.concatCopy → _
    split_ifs with h
    · intro hc; exact absurd rfl hc
    · intro _
      show (if (b :: rest).all
          (fun f => is_compatible (extract_compatibility a) (extract_compatibility f)) = true
        then MergeStrategy.concatCopy else MergeStrategy.transcodeNormalize) =
          MergeStrategy.transcodeNormalize
      simp [h]

/-- Claim C9 counterexample: for the one-character path consisting of a single
quote, the manifest line replaces the quote by the four-character sequence
quote-backslash-quote-quote; the claimed escape sequence is not three
characters long. -/
theorem spec_C9_cex :
    create_concat_list [[squote]] =
      "file ".toList ++ [squote] ++ [squote, backslash, squote, squote] ++
        [squote] ++ [newlineChar] ∧
    ¬ (([squote, backslash, squote, squote] : List Char).length = 3) :=
  ⟨rfl, by decide⟩

/-- Claim C9 (amended): the manifest holds exactly one line per input path, in
input order, of the form `file`, space, quote, escaped path, quote, newline,
where every single quote in the path is replaced by the FOUR-character
sequence quote-backslash-quote-quote and every other character is emitted
unchanged. -/
theorem spec_C9 (ps : List (List Char)) :
    create_concat_list ps =
      (ps.map (fun p => "file ".toList ++ [squote] ++
        specEscapeWith [squote, backslash, squote, squote] p ++
        [squote] ++ [newlineChar])).flatten := by
  induction ps with
  | nil => rfl
  | cons p rest ih =>
      simp [create_concat_list, file_line, ih, escape_squotes_eq_spec]

/-- Claim C8: on lookup, a recorded entry whose artifact is missing is deleted
and the call behaves as a miss (a fresh artifact is produced at
`<dir>/<key>.ts` and a new row recorded); a recorded entry whose artifact
exists is touched and its path returned without normalizing. -/
theorem spec_C8 (st : CacheState) (sfi key dir cfg fid now : String) (size : Int)
    (e : CacheEntry) (hfind : st.store.find? (fun x => x.cache_key = key) = some e) :
    (e.cache_path ∈ st.disk →
      get_or_normalize st sfi key dir cfg fid now size =
        (e.cache_path, { st with store := touch_entry e.id now st.store })) ∧
    (e.cache_path ∉ st.disk →
      get_or_normalize st sfi key dir cfg fid now size =
        (dir ++ "/" ++ key ++ ".ts",
         { store := delete_entry e.id st.store ++
             [{ id := fid, source_file_id := sfi, cache_key := key,
                cache_path := dir ++ "/" ++ key ++ ".ts", size_bytes := size,
                normalize_config := cfg, created_at := now, last_accessed := now }],
           disk := (dir ++ "/" ++ key ++ ".ts") :: st.disk })) := by
  constructor
  · intro hmem
    unfold get_or_normalize get_cached
    rw [hfind]
    simp [hmem]
  · intro hmem
    unfold get_or_normalize get_cached
    rw [hfind]
    simp [hmem]

/-- Claim C8 witness: the hit case, evaluated on a one-row store whose
artifact is on disk. -/
theorem spec_C8_witness :
    get_or_normalize ⟨[⟨"i1", "f1", "k", "p", 5, "c", "t0", "t0"⟩], ["p"]⟩
        "f1" "k" "d" "c" "i2" "t1" 7 =
      ("p", ⟨[⟨"i1", "f1", "k", "p", 5, "c", "t0", "t1"⟩], ["p"]⟩) := by
  have h := (spec_C8 ⟨[⟨"i1", "f1", "k", "p", 5, "c", "t0", "t0"⟩], ["p"]⟩
    "f1" "k" "d" "c" "i2" "t1" 7 ⟨"i1", "f1", "k", "p", 5, "c", "t0", "t0"⟩
    (by simp [List.find?])).1 (by simp)
  simpa [touch_entry] using h

/-- Characterization of a strict comparison win under the source `Ord`. -/
theorem cmpQS_gt_iff (a b : QueuedStream) :
    cmpQS a b = .gt ↔
      (b.pinned = false ∧ a.pinned = true) ∨
      (a.pinned = b.pinned ∧ b.priority < a.priority) ∨
      (a.pinned = b.pinned ∧ a.priority = b.priority ∧ a.queued_at < b.queued_at) := by
  obtain ⟨i1, p1, pin1, m1, t1⟩ := a
  obtain ⟨i2, p2, pin2, m2, t2⟩ := b
  simp only [cmpQS]
  cases pin1 <;> cases pin2 <;>
    simp [boolCmp, natCmp, Ordering.then] <;> split_ifs <;> simp_all <;> omega

/-- `cmpQS` never declares an element greater than itself. -/
theorem cmpQS_gt_irrefl (a : QueuedStream) : ¬ cmpQS a a = .gt := by
  rw [cmpQS_gt_iff]; simp

/-- Transitivity of the strict comparison. -/
theorem cmpQS_gt_trans (a b c : QueuedStream)
    (h1 : cmpQS a b = .gt) (h2 : cmpQS b c = .gt) : cmpQS a c = .gt := by
  rw [cmpQS_gt_iff] at h1 h2 ⊢
  obtain ⟨i1, p1, pin1, m1, t1⟩ := a
  obtain ⟨i2, p2, pin2, m2, t2⟩ := b
  obtain ⟨i3, p3, pin3, m3, t3⟩ := c
  cases pin1 <;> cases pin2 <;> cases pin3 <;> simp_all <;> omega

/-- If `y` beats `m` but `x` does not, then `y` beats `x`. -/
theorem cmpQS_gt_of_gt_not_gt (x y m : QueuedStream)
    (h1 : cmpQS y m = .gt) (h2 : ¬ cmpQS x m = .gt) : cmpQS y x = .gt := by
  rw [cmpQS_gt_iff] at h1 h2 ⊢
  obtain ⟨i1, p1, pin1, m1, t1⟩ := x
  obtain ⟨i2, p2, pin2, m2, t2⟩ := y
  obtain ⟨i3, p3, pin3, m3, t3⟩ := m
  cases pin1 <;> cases pin2 <;> cases pin3 <;> simp_all <;> omega

/-- A heap pop returns a permutation: the popped element plus the rest. -/
theorem popMax_perm (x : QueuedStream) (xs : List QueuedStream) :
    ((popMax x xs).1 :: (popMax x xs).2).Perm (x :: xs) := by
  induction xs generalizing x with
  | nil => simp [popMax]
  | cons y ys ih =>
      simp only [popMax]
      split_ifs with h
      · exact (List.Perm.swap x _ _).trans (List.Perm.cons x (ih y))
      · exact ((List.Perm.swap y _ _).trans (List.Perm.cons y (ih x))).trans
          (List.Perm.swap x y ys)

/-- Popping removes exactly one element. -/
theorem popMax_snd_length (x : QueuedStream) (xs : List QueuedStream) :
    (popMax x xs).2.length = xs.length := by
  have h := (popMax_perm x xs).length_eq
  simpa using h

/-- The popped element is maximal: neither the seed nor any remaining element
compares strictly greater than it. -/
theorem popMax_max (x : QueuedStream) (xs : List QueuedStream) :
    (¬ cmpQS x (popMax x xs).1 = .gt) ∧
    ∀ z ∈ (popMax x xs).2, ¬ cmpQS z (popMax x xs).1 = .gt := by
  induction xs generalizing x with
  | nil => exact ⟨cmpQS_gt_irrefl x, by simp [popMax]⟩
  | cons y ys ih =>
      simp only [popMax]
      split_ifs with h
      · refine ⟨fun hx => (ih y).1 (cmpQS_gt_trans y x _ h hx), ?_⟩
        intro z hz
        rcases List.mem_cons.1 hz with rfl | hz
        · exact fun hx => (ih y).1 (cmpQS_gt_trans y z _ h hx)
        · exact (ih y).2 z hz
      · refine ⟨(ih x).1, ?_⟩
        intro z hz
        rcases List.mem_cons.1 hz with rfl | hz
        · exact fun hy => h (cmpQS_gt_of_gt_not_gt x z _ hy ((ih x).1))
        · exact (ih x).2 z hz

/-- Draining with enough fuel yields a permutation of the queue contents. -/
theorem dequeueN_perm (n : Nat) (l : List QueuedStream) (h : l.length ≤ n) :
    (dequeueN n l).Perm l := by
  induction n generalizing l with
  | zero =>
      cases l with
      | nil => simp [dequeueN]
      | cons x xs => simp at h
  | succ n ih =>
      cases l with
      | nil => simp [dequeueN]
      | cons x xs =>
          simp only [dequeueN]
          have hlen : (popMax x xs).2.length ≤ n := by
            rw [popMax_snd_length]; simpa using h
          exact (List.Perm.cons _ (ih _ hlen)).trans (popMax_perm x xs)

/-- The drain order is sorted: no later element compares strictly greater than
an earlier one. -/
theorem dequeueN_pairwise (n : Nat) (l : List QueuedStream) (h : l.length ≤ n) :
    (dequeueN n l).Pairwise (fun a b => ¬ cmpQS b a = .gt) := by
  induction n generalizing l with
  | zero => cases l <;> simp [dequeueN]
  | succ n ih =>
      cases l with
      | nil => simp [dequeueN]
      | cons x xs =>
          simp only [dequeueN]
          have hlen : (popMax x xs).2.length ≤ n := by
            rw [popMax_snd_length]; simpa using h
          refine List.Pairwise.cons ?_ (ih _ hlen)
          intro b hb
          have hbmem : b ∈ (popMax x xs).2 := (dequeueN_perm n _ hlen).mem_iff.1 hb
          exact (popMax_max x xs).2 b hbmem

/-- Claim C4: repeated dequeue of a queue holding the entries `l` yields all
of them (a permutation), with every pinned entry before every unpinned one,
higher priority before lower among equal pinned flags, and earlier `queued_at`
before later among equal `(pinned, priority)`. -/
theorem spec_C4 (l : List QueuedStream) (i j : Fin (dequeueAll l).length)
    (hij : i < j) :
    (dequeueAll l).Perm l ∧
    (((dequeueAll l).get j).pinned = true → ((dequeueAll l).get i).pinned = true) ∧
    (((dequeueAll l).get i).pinned = ((dequeueAll l).get j).pinned →
      ((dequeueAll l).get j).priority ≤ ((dequeueAll l).get i).priority) ∧
    (((dequeueAll l).get i).pinned = ((dequeueAll l).get j).pinned →
      ((dequeueAll l).get i).priority = ((dequeueAll l).get j).priority →
      ((dequeueAll l).get i).queued_at ≤ ((dequeueAll l).get j).queued_at) := by
  have hperm : (dequeueAll l).Perm l := dequeueN_perm l.length l le_rfl
  have hpair : (dequeueAll l).Pairwise (fun a b => ¬ cmpQS b a = .gt) :=
    dequeueN_pairwise l.length l le_rfl
  have hrel := List.pairwise_iff_get.1 hpair i j hij
  rw [cmpQS_gt_iff] at hrel
  push_neg at hrel
  refine ⟨hperm, ?_, ?_, ?_⟩
  · intro hj
    by_contra hi
    have hi2 : ((dequeueAll l).get i).pinned = false := by
      cases hgi : ((dequeueAll l).get i).pinned
      · rfl
      · exact absurd hgi hi
    exact absurd hj (hrel.1 hi2)
  · intro hpin
    have := hrel.2.1 hpin.symm
    omega
  · intro hpin hprio
    have := hrel.2.2 hpin.symm hprio.symm
    omega

/-- Claim C4 witness: the pinned low-priority entry is dequeued before the
unpinned high-priority one. -/
theorem spec_C4_witness :
    (dequeueAll [⟨"low", 10, false, "copy", 0⟩, ⟨"high", 100, false, "copy", 0⟩,
        ⟨"pin", 1, true, "copy", 0⟩]).Perm
      [⟨"low", 10, false, "copy", 0⟩, ⟨"high", 100, false, "copy", 0⟩,
        ⟨"pin", 1, true, "copy", 0⟩] ∧
    (((dequeueAll [⟨"low", 10, false, "copy", 0⟩, ⟨"high", 100, false, "copy", 0⟩,
        ⟨"pin", 1, true, "copy", 0⟩]).get ⟨1, by decide⟩).pinned = true →
      ((dequeueAll [⟨"low", 10, false, "copy", 0⟩, ⟨"high", 100, false, "copy", 0⟩,
        ⟨"pin", 1, true, "copy", 0⟩]).get ⟨0, by decide⟩).pinned = true) ∧
    (((dequeueAll [⟨"low", 10, false, "copy", 0⟩, ⟨"high", 100, false, "copy", 0⟩,
        ⟨"pin", 1, true, "copy", 0⟩]).get ⟨0, by decide⟩).pinned =
      ((dequeueAll [⟨"low", 10, false, "copy", 0⟩, ⟨"high", 100, false, "copy", 0⟩,
        ⟨"pin", 1, true, "copy", 0⟩]).get ⟨1, by decide⟩).pinned →
      ((dequeueAll [⟨"low", 10, false, "copy", 0⟩, ⟨"high", 100, false, "copy", 0⟩,
        ⟨"pin", 1, true, "copy", 0⟩]).get ⟨1, by decide⟩).priority ≤
      ((dequeueAll [⟨"low", 10, false, "copy", 0⟩, ⟨"high", 100, false, "copy", 0⟩,
        ⟨"pin", 1, true, "copy", 0⟩]).get ⟨0, by decide⟩).priority) ∧
    (((dequeueAll [⟨"low", 10, false, "copy", 0⟩, ⟨"high", 100, false, "copy", 0⟩,
        ⟨"pin", 1, true, "copy", 0⟩]).get ⟨0, by decide⟩).pinned =
      ((dequeueAll [⟨"low", 10, false, "copy", 0⟩, ⟨"high", 100, false, "copy", 0⟩,
        ⟨"pin", 1, true, "copy", 0⟩]).get ⟨1, by decide⟩).pinned →
      ((dequeueAll [⟨"low", 10, false, "copy", 0⟩, ⟨"high", 100, false, "copy", 0⟩,
        ⟨"pin", 1, true, "copy", 0⟩]).get ⟨0, by decide⟩).priority =
      ((dequeueAll [⟨"low", 10, false, "copy", 0⟩, ⟨"high", 100, false, "copy", 0⟩,
        ⟨"pin", 1, true, "copy", 0⟩]).get ⟨1, by decide⟩).priority →
      ((dequeueAll [⟨"low", 10, false, "copy", 0⟩, ⟨"high", 100, false, "copy", 0⟩,
        ⟨"pin", 1, true, "copy", 0⟩]).get ⟨0, by decide⟩).queued_at ≤
      ((dequeueAll [⟨"low", 10, false, "copy", 0⟩, ⟨"high", 100, false, "copy", 0⟩,
        ⟨"pin", 1, true, "copy", 0⟩]).get ⟨1, by decide⟩).queued_at) :=
  spec_C4 [⟨"low", 10, false, "copy", 0⟩, ⟨"high", 100, false, "copy", 0⟩,
      ⟨"pin", 1, true, "copy", 0⟩] ⟨0, by decide⟩ ⟨1, by decide⟩ (by decide)

/-- Claim C5: `try_dequeue_next` evaluates exactly the head: on an empty queue
or a head that is not `Allowed` it returns nothing and changes nothing; on an
`Allowed` head it pops it, records the start, marks it running, applies
`SlotAvailable` to its machine and returns its id. -/
theorem spec_C5 (s : Scheduler) :
    (s.queue.peek = none → s.try_dequeue_next = (none, s)) ∧
    (∀ q, s.queue.peek = some q →
      ¬ s.limits.can_start q.mode (s.queued_bitrate q.stream_id) = .allowed →
      s.try_dequeue_next = (none, s)) ∧
    (∀ q, s.queue.peek = some q →
      s.limits.can_start q.mode (s.queued_bitrate q.stream_id) = .allowed →
      s.try_dequeue_next =
        (some q.stream_id,
         { s with
           queue := (s.queue.dequeue).2.mark_running q.stream_id,
           limits := s.limits.record_start q.mode (s.queued_bitrate q.stream_id),
           states := updateA q.stream_id (fun sm => applyOr sm .slotAvailable)
             s.states })) := by
  refine ⟨?_, ?_, ?_⟩
  · intro h
    simp only [Scheduler.try_dequeue_next, h]
  · intro q h hc
    simp only [Scheduler.try_dequeue_next, h]
    simp [hc]
  · intro q h hc
    simp only [Scheduler.try_dequeue_next, h]
    simp [hc]

/-- Claim C5 witness: on a fresh scheduler the queue is empty and the call is
a no-op. -/
theorem spec_C5_witness :
    (Scheduler.new AppSettings.default).try_dequeue_next =
      (none, Scheduler.new AppSettings.default) :=
  (spec_C5 (Scheduler.new AppSettings.default)).1 rfl

/-- Only the three known mode strings are ever `Allowed`. -/
theorem can_start_allowed_mode (e : LimitsEnforcer) (mode : String) (b : Nat)
    (h : e.can_start mode b = .allowed) :
    mode = "copy" ∨ mode = "cpu" ∨ mode = "nvenc" := by
  unfold LimitsEnforcer.can_start at h
  split_ifs at h <;> simp_all

/-- Adding a known-mode stream preserves the counter inequality. -/
theorem counterInv_add (u : CurrentUsage) (mode : String) (b : Nat)
    (hm : mode = "copy" ∨ mode = "cpu" ∨ mode = "nvenc")
    (h : u.total_running ≤ u.copy_running + u.cpu_transcoding + u.nvenc_transcoding) :
    (u.add_stream mode b).total_running ≤
      (u.add_stream mode b).copy_running + (u.add_stream mode b).cpu_transcoding +
        (u.add_stream mode b).nvenc_transcoding := by
  rcases hm with rfl | rfl | rfl <;> simp [CurrentUsage.add_stream] <;> omega

/-- Any saturating decrement preserves the counter inequality. -/
theorem counterInv_remove (u : CurrentUsage) (mode : String) (b : Nat)
    (h : u.total_running ≤ u.copy_running + u.cpu_transcoding + u.nvenc_transcoding) :
    (u.remove_stream mode b).total_running ≤
      (u.remove_stream mode b).copy_running + (u.remove_stream mode b).cpu_transcoding +
        (u.remove_stream mode b).nvenc_transcoding := by
  unfold CurrentUsage.remove_stream
  split_ifs <;> simp <;> omega

/-- Every public scheduler operation preserves the counter inequality. -/
theorem counterInv_step (s : Scheduler) (op : Op)
    (h : s.limits.usage.total_running ≤
      s.limits.usage.copy_running + s.limits.usage.cpu_transcoding +
        s.limits.usage.nvenc_transcoding) :
    (s.step op).limits.usage.total_running ≤
      (s.step op).limits.usage.copy_running + (s.step op).limits.usage.cpu_transcoding +
        (s.step op).limits.usage.nvenc_transcoding := by
  cases op with
  | register info => simpa [Scheduler.step, Scheduler.register_stream] using h
  | unregister id => simpa [Scheduler.step, Scheduler.unregister_stream] using h
  | updateSettings st =>
      simpa [Scheduler.step, Scheduler.update_settings,
        LimitsEnforcer.update_limits] using h
  | onProcessStarted id pid =>
      simpa [Scheduler.step, Scheduler.on_process_started] using h
  | onStreamStopped id =>
      simp only [Scheduler.step, Scheduler.on_stream_stopped]
      split
      · exact counterInv_remove _ _ _ h
      · exact h
  | onStreamError id msg =>
      simp only [Scheduler.step, Scheduler.on_stream_error]
      split
      · exact counterInv_remove _ _ _ h
      · exact h
  | requestStop id =>
      simp only [Scheduler.step, Scheduler.request_stop]
      split
      · split_ifs
        · split
          · exact counterInv_remove _ _ _ h
          · exact h
        · exact h
      · exact h
  | requestStart id now =>
      simp only [Scheduler.step, Scheduler.request_start]
      split
      · exact h
      · split_ifs
        · exact h
        · split
          case _ heq =>
            exact counterInv_add _ _ _ (can_start_allowed_mode _ _ _ heq) h
          · exact h
          · exact h
  | tryDequeueNext =>
      simp only [Scheduler.step, Scheduler.try_dequeue_next]
      split
      · exact h
      · split_ifs with heq
        · exact counterInv_add _ _ _ (can_start_allowed_mode _ _ _ heq) h
        · exact h

/-- The counter inequality holds after any run of public operations. -/
theorem counterInv_run (ops : List Op) (s : Scheduler)
    (h : s.limits.usage.total_running ≤
      s.limits.usage.copy_running + s.limits.usage.cpu_transcoding +
        s.limits.usage.nvenc_transcoding) :
    (s.run ops).limits.usage.total_running ≤
      (s.run ops).limits.usage.copy_running + (s.run ops).limits.usage.cpu_transcoding +
        (s.run ops).limits.usage.nvenc_transcoding := by
  induction ops generalizing s with
  | nil => exact h
  | cons op ops ih => exact ih (s.step op) (counterInv_step s op h)

/-- Claim C1 counterexample: register a copy stream and a cpu stream, start
the copy stream, then deliver a stop notification for the cpu stream that was
never started. The saturating decrements leave `total_running = 0` while
`copy_running = 1`, so the claimed equality
`total_running = copy_running + cpu_transcoding + nvenc_transcoding` fails. -/
theorem spec_C1_cex :
    ¬ (((Scheduler.new AppSettings.default).run
          [.register ⟨"a", "copy", 10, 0, false⟩,
           .register ⟨"b", "cpu", 10, 0, false⟩,
           .requestStart "a" 0,
           .onStreamStopped "b"]).limits.usage.total_running =
        ((Scheduler.new AppSettings.default).run
          [.register ⟨"a", "copy", 10, 0, false⟩,
           .register ⟨"b", "cpu", 10, 0, false⟩,
           .requestStart "a" 0,
           .onStreamStopped "b"]).limits.usage.copy_running +
        ((Scheduler.new AppSettings.default).run
          [.register ⟨"a", "copy", 10, 0, false⟩,
           .register ⟨"b", "cpu", 10, 0, false⟩,
           .requestStart "a" 0,
           .onStreamStopped "b"]).limits.usage.cpu_transcoding +
        ((Scheduler.new AppSettings.default).run
          [.register ⟨"a", "copy", 10, 0, false⟩,
           .register ⟨"b", "cpu", 10, 0, false⟩,
           .requestStart "a" 0,
           .onStreamStopped "b"]).limits.usage.nvenc_transcoding) := by
  decide

/-- Claim C1 (amended): for every sequence of public operations from a fresh
scheduler, `total_running ≤ copy_running + cpu_transcoding + nvenc_transcoding`
(all counters are naturals with saturating decrements, hence non-negative);
the equality claimed by the spec can be broken by stop notifications for
streams that are not currently counted as running. -/
theorem spec_C1 (settings : AppSettings) (ops : List Op) :
    ((Scheduler.new settings).run ops).limits.usage.total_running ≤
      ((Scheduler.new settings).run ops).limits.usage.copy_running +
        ((Scheduler.new settings).run ops).limits.usage.cpu_transcoding +
        ((Scheduler.new settings).run ops).limits.usage.nvenc_transcoding :=
  counterInv_run ops (Scheduler.new settings) (Nat.zero_le _)

/-- Lookup after insert-or-replace. -/
theorem lookupA_insertA {α : Type} (k k2 : String) (v : α) (l : List (String × α)) :
    lookupA k (insertA k2 v l) = if k2 = k then some v else lookupA k l := by
  induction l with
  | nil => simp [insertA, lookupA]
  | cons kv rest ih =>
      obtain ⟨k3, v3⟩ := kv
      by_cases h3 : k3 = k2 <;> by_cases h : k3 = k <;>
        simp_all [insertA, lookupA] <;>
        rw [if_neg (fun hh => h3 hh.symm)]

/-- Lookup of a different key is unaffected by removal. -/
theorem lookupA_removeA {α : Type} (k k2 : String) (l : List (String × α))
    (hne : ¬ k2 = k) :
    lookupA k (removeA k2 l) = lookupA k l := by
  induction l with
  | nil => rfl
  | cons kv rest ih =>
      obtain ⟨k3, v3⟩ := kv
      by_cases h3 : k3 = k2 <;> by_cases h : k3 = k <;>
        simp_all [removeA, lookupA]

/-- Membership in the queue after the drain-and-filter removal. -/
theorem mem_removeQ (q : QueuedStream) (id : String) (l : List QueuedStream)
    (h : q ∈ removeQ id l) : q ∈ l ∧ ¬ q.stream_id = id := by
  induction l with
  | nil => cases h
  | cons x xs ih =>
      by_cases hx : x.stream_id = id
      · simp only [removeQ, if_pos hx] at h
        exact ⟨List.mem_cons_of_mem x (ih h).1, (ih h).2⟩
      · simp only [removeQ, if_neg hx] at h
        rcases List.mem_cons.1 h with rfl | h2
        · exact ⟨List.mem_cons_self _ _, hx⟩
        · exact ⟨List.mem_cons_of_mem x (ih h2).1, (ih h2).2⟩

/-- A peeked entry is one of the queued entries. -/
theorem peek_mem (qm : QueueManager) (q : QueuedStream) (h : qm.peek = some q) :
    q ∈ qm.queue := by
  unfold QueueManager.peek at h
  match hq : qm.queue with
  | [] => rw [hq] at h; cases h
  | x :: xs =>
      rw [hq] at h
      have hm : (popMax x xs).1 ∈ (popMax x xs).1 :: (popMax x xs).2 :=
        List.mem_cons_self _ _
      have := (popMax_perm x xs).mem_iff.1 hm
      simpa [← Option.some_inj.1 h] using this

/-- An element left in the queue after a pop was in the queue before. -/
theorem mem_popMax_snd (x z : QueuedStream) (xs : List QueuedStream)
    (h : z ∈ (popMax x xs).2) : z ∈ x :: xs :=
  (popMax_perm x xs).mem_iff.1 (List.mem_cons_of_mem _ h)

/-- `request_stop` never changes the descriptor table. -/
theorem request_stop_stream_info (s : Scheduler) (id : String) :
    ((s.request_stop id).2).stream_info = s.stream_info := by
  unfold Scheduler.request_stop
  dsimp only
  split
  · split_ifs
    · split <;> rfl
    · rfl
  · rfl

/-- `request_stop` leaves exactly the other entries in the queue. -/
theorem request_stop_queue_list (s : Scheduler) (id : String) :
    ((s.request_stop id).2).queue.queue = removeQ id s.queue.queue := by
  unfold Scheduler.request_stop
  dsimp only
  split
  · split_ifs
    · split <;> rfl
    · rfl
  · rfl

/-- Marking a stream running does not change the queued entries. -/
theorem mark_running_queue (qm : QueueManager) (id : String) :
    (qm.mark_running id).queue = qm.queue := by
  unfold QueueManager.mark_running
  split_ifs <;> rfl

/-- `request_start` never changes the descriptor table. -/
theorem request_start_stream_info (s : Scheduler) (id : String) (now : Nat) :
    ((s.request_start id now).2).stream_info = s.stream_info := by
  unfold Scheduler.request_start
  dsimp only
  split
  · rfl
  · split_ifs
    · rfl
    · split <;> rfl

/-- Entries in the queue after `request_start` were already queued, or are the
freshly enqueued entry for a registered id. -/
theorem request_start_queue_mem (s : Scheduler) (id : String) (now : Nat)
    (q : QueuedStream) (hq : q ∈ ((s.request_start id now).2).queue.queue) :
    q ∈ s.queue.queue ∨ (q.stream_id = id ∧ ¬ lookupA id s.stream_info = none) := by
  unfold Scheduler.request_start at hq
  dsimp only at hq
  split at hq
  · exact Or.inl hq
  next info heq =>
    split_ifs at hq
    · exact Or.inl hq
    · split at hq
      · dsimp only at hq
        rw [mark_running_queue] at hq
        exact Or.inl hq
      · dsimp only at hq
        simp only [QueueManager.enqueue] at hq
        split_ifs at hq
        · exact Or.inl hq
        · rcases List.mem_append.1 hq with hmem | hnew
          · exact Or.inl hmem
          · simp only [List.mem_singleton] at hnew
            subst hnew
            exact Or.inr ⟨rfl, by rw [heq]; simp⟩
      · exact Or.inl hq

/-- `try_dequeue_next` never changes the descriptor table. -/
theorem try_dequeue_stream_info (s : Scheduler) :
    ((s.try_dequeue_next).2).stream_info = s.stream_info := by
  unfold Scheduler.try_dequeue_next
  dsimp only
  split
  · rfl
  · split_ifs <;> rfl

/-- Entries in the queue after `try_dequeue_next` were queued before. -/
theorem try_dequeue_queue_mem (s : Scheduler) (q : QueuedStream)
    (hq : q ∈ ((s.try_dequeue_next).2).queue.queue) : q ∈ s.queue.queue := by
  unfold Scheduler.try_dequeue_next at hq
  dsimp only at hq
  split at hq
  · exact hq
  · split_ifs at hq
    · dsimp only at hq
      rw [mark_running_queue] at hq
      unfold QueueManager.dequeue at hq
      split at hq
      · exact hq
      next x xs hxq =>
        dsimp only at hq
        have := mem_popMax_snd x q xs hq
        rw [← hxq] at this
        exact this
    · exact hq

/-- Every public operation preserves the "queued entries are registered"
invariant. -/
theorem queueReg_step (s : Scheduler) (op : Op)
    (h : ∀ q ∈ s.queue.queue, ¬ lookupA q.stream_id s.stream_info = none) :
    ∀ q ∈ (s.step op).queue.queue,
      ¬ lookupA q.stream_id (s.step op).stream_info = none := by
  cases op with
  | register info =>
      intro q hq
      simp only [Scheduler.step, Scheduler.register_stream] at hq ⊢
      rw [lookupA_insertA]
      split_ifs with he
      · simp
      · exact h q hq
  | unregister id =>
      intro q hq
      simp only [Scheduler.step, Scheduler.unregister_stream,
        QueueManager.remove_from_queue] at hq ⊢
      obtain ⟨hmem, hne⟩ := mem_removeQ q id _ hq
      rw [lookupA_removeA _ _ _ (fun he => hne he.symm)]
      exact h q hmem
  | updateSettings st =>
      intro q hq
      simp only [Scheduler.step, Scheduler.update_settings,
        LimitsEnforcer.update_limits] at hq ⊢
      exact h q hq
  | onProcessStarted id pid =>
      intro q hq
      simp only [Scheduler.step, Scheduler.on_process_started] at hq ⊢
      exact h q hq
  | onStreamStopped id =>
      intro q hq
      simp only [Scheduler.step, Scheduler.on_stream_stopped,
        QueueManager.mark_stopped] at hq ⊢
      split at hq <;> exact h q hq
  | onStreamError id msg =>
      intro q hq
      simp only [Scheduler.step, Scheduler.on_stream_error,
        QueueManager.mark_stopped] at hq ⊢
      split at hq <;> exact h q hq
  | requestStop id =>
      intro q hq
      simp only [Scheduler.step] at hq ⊢
      rw [request_stop_queue_list] at hq
      rw [request_stop_stream_info]
      obtain ⟨hmem, _⟩ := mem_removeQ q id _ hq
      exact h q hmem
  | requestStart id now =>
      intro q hq
      simp only [Scheduler.step] at hq ⊢
      rw [request_start_stream_info]
      rcases request_start_queue_mem s id now q hq with hmem | ⟨hid, hreg⟩
      · exact h q hmem
      · rw [hid]
        exact hreg
  | tryDequeueNext =>
      intro q hq
      simp only [Scheduler.step] at hq ⊢
      rw [try_dequeue_stream_info]
      exact h q (try_dequeue_queue_mem s q hq)

/-- The invariant holds after any run from a fresh scheduler. -/
theorem queueReg_run (ops : List Op) (s : Scheduler)
    (h : ∀ q ∈ s.queue.queue, ¬ lookupA q.stream_id s.stream_info = none) :
    ∀ q ∈ (s.run ops).queue.queue,
      ¬ lookupA q.stream_id (s.run ops).stream_info = none := by
  induction ops generalizing s with
  | nil => exact h
  | cons op ops ih => exact ih (s.step op) (queueReg_step s op h)

/-- Claim C10: after any sequence of public operations from a fresh scheduler,
every queued entry has a registered descriptor; in particular the head seen by
`try_dequeue_next` always resolves, so the `unwrap_or(0)` bitrate fallback is
never exercised. -/
theorem spec_C10 (settings : AppSettings) (ops : List Op) :
    (∀ q ∈ ((Scheduler.new settings).run ops).queue.queue,
      ¬ lookupA q.stream_id ((Scheduler.new settings).run ops).stream_info = none) ∧
    (∀ q, ((Scheduler.new settings).run ops).queue.peek = some q →
      ¬ lookupA q.stream_id ((Scheduler.new settings).run ops).stream_info = none) := by
  have hrun := queueReg_run ops (Scheduler.new settings) (by intro q hq; cases hq)
  exact ⟨hrun, fun q hq => hrun q (peek_mem _ q hq)⟩

/-- Claim C10 witness: with `max_total = 0` a started stream is queued, and
its descriptor lookup succeeds. -/
theorem spec_C10_witness :
    ¬ lookupA "a"
        (((Scheduler.new ⟨0, 1, 1, 100⟩).run
          [.register ⟨"a", "copy", 10, 0, false⟩,
           .requestStart "a" 0]).stream_info) = none :=
  (spec_C10 ⟨0, 1, 1, 100⟩
      [.register ⟨"a", "copy", 10, 0, false⟩, .requestStart "a" 0]).1
    ⟨"a", 0, false, "copy", 0⟩ (by decide)

/-- Claim C7 witness: two files that differ in video codec are sent to
transcode-normalize, via the two-or-more-files clause of the claim. -/
theorem spec_C7_witness :
    check_merge_compatibility
      [⟨"1", "/a", "f", "a", some "h264", some "aac", none, none, 0, some 1920,
          some 1080, none, none, "copy", "t"⟩,
       ⟨"2", "/b", "f", "b", some "hevc", some "aac", none, none, 0, some 1920,
          some 1080, none, none, "copy", "t"⟩] = .transcodeNormalize :=
  (spec_C7.2.2
      ⟨"1", "/a", "f", "a", some "h264", some "aac", none, none, 0, some 1920,
        some 1080, none, none, "copy", "t"⟩
      ⟨"2", "/b", "f", "b", some "hevc", some "aac", none, none, 0, some 1920,
        some 1080, none, none, "copy", "t"⟩ []).2 (by decide)

end Streviz
